import Mathlib

/-!
Verification of the backup/restore engine of `mbtool` (`src/mbtool/backup.cpp`
of DualBootPatcher).  The engine's fallible collaborators (stat, copy, mount,
umount, tar create/extract, wipe, image creation, the boot-image and cpio
codecs) are modelled by oracle environments of booleans: each field records
whether the corresponding call would succeed.  Side effects on the filesystem
are modelled as explicit event traces, so that claims about "nothing written"
or "exactly one unmount attempt" become statements about the trace.
-/

namespace MB

/-- Step result, from `enum class Result` in backup.cpp. -/
inductive Result where
  | SUCCEEDED
  | FAILED
  | FILES_MISSING
  | BOOT_IMAGE_UNPATCHED
deriving DecidableEq, Repr

/-- Bitmask constant `BACKUP_TARGET_SYSTEM`. -/
def BACKUP_TARGET_SYSTEM : Nat := 0x1
/-- Bitmask constant `BACKUP_TARGET_CACHE`. -/
def BACKUP_TARGET_CACHE : Nat := 0x2
/-- Bitmask constant `BACKUP_TARGET_DATA`. -/
def BACKUP_TARGET_DATA : Nat := 0x4
/-- Bitmask constant `BACKUP_TARGET_BOOT`. -/
def BACKUP_TARGET_BOOT : Nat := 0x8
/-- Bitmask constant `BACKUP_TARGET_CONFIG`. -/
def BACKUP_TARGET_CONFIG : Nat := 0x10
/-- Bitmask constant `BACKUP_TARGET_ALL`, the or of the five category bits. -/
def BACKUP_TARGET_ALL : Nat :=
  BACKUP_TARGET_SYSTEM ||| BACKUP_TARGET_CACHE ||| BACKUP_TARGET_DATA
    ||| BACKUP_TARGET_BOOT ||| BACKUP_TARGET_CONFIG

/-- Archive artifact name `BACKUP_NAME_SYSTEM`. -/
def BACKUP_NAME_SYSTEM : String := "system.tar"
/-- Archive artifact name `BACKUP_NAME_CACHE`. -/
def BACKUP_NAME_CACHE : String := "cache.tar"
/-- Archive artifact name `BACKUP_NAME_DATA`. -/
def BACKUP_NAME_DATA : String := "data.tar"
/-- Artifact name `BACKUP_NAME_BOOT_IMAGE`. -/
def BACKUP_NAME_BOOT_IMAGE : String := "boot.img"
/-- Artifact name `BACKUP_NAME_CONFIG`. -/
def BACKUP_NAME_CONFIG : String := "config.json"
/-- Artifact name `BACKUP_NAME_THUMBNAIL`. -/
def BACKUP_NAME_THUMBNAIL : String := "thumbnail.webp"
/-- The shared mount point `BACKUP_MNT_DIR`. -/
def BACKUP_MNT_DIR : String := "/mb_mnt"

/-- Modelled from the spec: `DEFAULT_IMAGE_SIZE` comes from `image.h`, which is
not among the repository files given; the spec only says cache/data restores
use "a fixed default size".  No claim depends on its value. -/
def DEFAULT_IMAGE_SIZE : Nat := 4294967296

/-- Modelled from the spec: `util::split` (from util/string, not among the
repository files given) "splits on commas".  `split_go acc s` walks `s`
accumulating the current token reversed in `acc`; the empty input yields one
empty token, which `parse_tokens` rejects just as the code rejects any
unknown token. -/
def split_go : List Char → List Char → List (List Char)
  | acc, [] => [acc.reverse]
  | acc, c :: cs =>
    if c = ',' then acc.reverse :: split_go [] cs else split_go (c :: acc) cs

/-- The loop body of `parse_targets_string`: fold the token list into the
`result` bitmask, returning 0 as soon as an unrecognized token is seen. -/
def parse_tokens : List (List Char) → Nat → Nat
  | [], result => result
  | t :: ts, result =>
    if t = "all".data then parse_tokens ts (result ||| BACKUP_TARGET_ALL)
    else if t = "system".data then parse_tokens ts (result ||| BACKUP_TARGET_SYSTEM)
    else if t = "cache".data then parse_tokens ts (result ||| BACKUP_TARGET_CACHE)
    else if t = "data".data then parse_tokens ts (result ||| BACKUP_TARGET_DATA)
    else if t = "boot".data then parse_tokens ts (result ||| BACKUP_TARGET_BOOT)
    else if t = "config".data then parse_tokens ts (result ||| BACKUP_TARGET_CONFIG)
    else 0

/-- `parse_targets_string` from backup.cpp: split on commas, or the bits of
each token together, reject the whole input on any unknown token. -/
def parse_targets_string (targets : String) : Nat :=
  parse_tokens (split_go [] targets.data) 0

/-- Specification-side helper: the bitmask a single token stands for, `none`
for an unrecognized token. -/
def token_bits (t : List Char) : Option Nat :=
  if t = "all".data then some BACKUP_TARGET_ALL
  else if t = "system".data then some BACKUP_TARGET_SYSTEM
  else if t = "cache".data then some BACKUP_TARGET_CACHE
  else if t = "data".data then some BACKUP_TARGET_DATA
  else if t = "boot".data then some BACKUP_TARGET_BOOT
  else if t = "config".data then some BACKUP_TARGET_CONFIG
  else none

/-- Specification-side helper: the or of the bits of all tokens of a list. -/
def or_bits (l : List (List Char)) : Nat :=
  l.foldr (fun t acc => (token_bits t).getD 0 ||| acc) 0

/-- First-character test used by `is_valid_backup_name` (`name[0] != '.'`). -/
def startsWithDot : List Char → Bool
  | c :: _ => c == '.'
  | [] => false

/-- Scan for an occurrence of `".."`, as `name.find("..") != npos` does. -/
def hasDotDot : List Char → Bool
  | [] => false
  | [_] => false
  | a :: b :: t => (a == '.' && b == '.') || hasDotDot (b :: t)

/-- `is_valid_backup_name` from backup.cpp: no empty strings, hidden paths,
`".."`, or directory separators. -/
def is_valid_backup_name (name : String) : Bool :=
  !name.data.isEmpty
    && !startsWithDot name.data
    && !hasDotDot name.data
    && !(name.data.any (fun c => c == '/'))

/-- The two files the Config/Thumbnail step copies. -/
inductive CFile where
  | config
  | thumbnail
deriving DecidableEq, Repr

/-- Oracle for `backup_configs`: whether each live source exists and whether
copying it would succeed. -/
structure ConfigsBackupEnv where
  configExists : Bool
  configCopyOk : Bool
  thumbExists : Bool
  thumbCopyOk : Bool
deriving DecidableEq, Repr

/-- Oracle for `restore_configs`: whether each bundle artifact exists and
whether copying it would succeed. -/
structure ConfigsRestoreEnv where
  configBakExists : Bool
  configCopyOk : Bool
  thumbBakExists : Bool
  thumbCopyOk : Bool
deriving DecidableEq, Repr

/-- The second half of `backup_configs`/`restore_configs`: the thumbnail
sub-copy, given the `ret` value the config sub-copy left behind and the trace
of copies attempted so far. -/
def configs_thumb_phase (thumbEx thumbOk : Bool) (ret : Result)
    (tr : List CFile) : Result × List CFile :=
  if thumbEx then
    if !thumbOk then (Result.FAILED, tr ++ [CFile.thumbnail])
    else (ret, tr ++ [CFile.thumbnail])
  else (Result.FILES_MISSING, tr)

/-- `backup_configs` from backup.cpp: copy config then thumbnail into the
bundle; a failing copy returns `FAILED` at once, a missing source downgrades
`ret` to `FILES_MISSING`.  The trace lists the copies attempted. -/
def backup_configs (e : ConfigsBackupEnv) : Result × List CFile :=
  if e.configExists then
    if !e.configCopyOk then (Result.FAILED, [CFile.config])
    else configs_thumb_phase e.thumbExists e.thumbCopyOk Result.SUCCEEDED [CFile.config]
  else configs_thumb_phase e.thumbExists e.thumbCopyOk Result.FILES_MISSING []

/-- `restore_configs` from backup.cpp: the same structure as `backup_configs`
with the bundle artifacts as sources. -/
def restore_configs (e : ConfigsRestoreEnv) : Result × List CFile :=
  if e.configBakExists then
    if !e.configCopyOk then (Result.FAILED, [CFile.config])
    else configs_thumb_phase e.thumbBakExists e.thumbCopyOk Result.SUCCEEDED [CFile.config]
  else configs_thumb_phase e.thumbBakExists e.thumbCopyOk Result.FILES_MISSING []

/-- Specification-side result of the Config/Thumbnail step, written from the
claim: the first failing sub-copy gives `FAILED`; all existing sources copied
but one missing gives `FILES_MISSING`; both present and copied gives
`SUCCEEDED`. -/
def configs_result_spec (aEx aOk bEx bOk : Bool) : Result :=
  if aEx && !aOk then Result.FAILED
  else if bEx && !bOk then Result.FAILED
  else if aEx && bEx then Result.SUCCEEDED
  else Result.FILES_MISSING

/-- Specification-side trace of the Config/Thumbnail step: each existing
source is attempted, except that a failed first copy stops the step before
the thumbnail. -/
def configs_trace_spec (aEx aOk bEx : Bool) : List CFile :=
  if aEx && !aOk then [CFile.config]
  else (if aEx then [CFile.config] else [])
    ++ (if bEx then [CFile.thumbnail] else [])

/-- An entry of the ramdisk cpio archive: name, content and permission mode.
The content of the `romid` entry is the ROM identifier string. -/
structure CpioEntry where
  name : String
  content : String
  mode : Nat
deriving DecidableEq, Repr

/-- Modelled from the spec: `mbp::CpioFile::remove` (libmbp is not among the
repository files given) removes "any existing identity entry named `romid`",
so it drops every entry of the given name. -/
def cpio_remove (entries : List CpioEntry) (n : String) : List CpioEntry :=
  entries.filter (fun e => e.name ≠ n)

/-- Modelled from the spec: `mbp::CpioFile::addFile` inserts a new entry of
the given name, content and permission mode. -/
def cpio_addFile (entries : List CpioEntry) (content : String) (n : String)
    (mode : Nat) : List CpioEntry :=
  entries ++ [⟨n, content, mode⟩]

/-- The "Set ROM ID" block of `restore_boot_image` (backup.cpp lines
305-308): `cpio.remove("romid")` then `cpio.addFile(data, "romid", 0664)`,
where `data` is the byte content of the ROM's identifier. -/
def set_rom_id (rom_id : String) (entries : List CpioEntry) : List CpioEntry :=
  cpio_addFile (cpio_remove entries "romid") rom_id "romid" 0o664

/-- Oracle for `restore_boot_image`: whether each fallible call of the step
would succeed, and whether the loaded image `wasType() == Loki`. -/
structure RestoreBootEnv where
  backupExists : Bool
  loadFileOk : Bool
  cpioLoadOk : Bool
  createDataOk : Bool
  wasLoki : Bool
  abootReadOk : Bool
  createFileOk : Bool
deriving DecidableEq, Repr

/-- `restore_boot_image` from backup.cpp, carrying the loaded ramdisk
explicitly: on success the written boot image's ramdisk is
`set_rom_id rom_id ramdisk`; every earlier failure returns `FAILED` (or
`FILES_MISSING` when the bundle has no boot image) and writes nothing. -/
def restore_boot_image (e : RestoreBootEnv) (rom_id : String)
    (ramdisk : List CpioEntry) : Result × Option (List CpioEntry) :=
  if !e.backupExists then (Result.FILES_MISSING, none)
  else if !e.loadFileOk then (Result.FAILED, none)
  else if !e.cpioLoadOk then (Result.FAILED, none)
  else
    let newRamdisk := set_rom_id rom_id ramdisk
    if !e.createDataOk then (Result.FAILED, none)
    else if e.wasLoki && !e.abootReadOk then (Result.FAILED, none)
    else if !e.createFileOk then (Result.FAILED, none)
    else (Result.SUCCEEDED, some newRamdisk)

/-- Oracle for `backup_boot_image`: does the live boot image exist, and would
the copy succeed. -/
structure BootBackupEnv where
  bootImageExists : Bool
  copyOk : Bool
deriving DecidableEq, Repr

/-- `backup_boot_image` from backup.cpp. -/
def backup_boot_image (e : BootBackupEnv) : Result :=
  if e.bootImageExists then
    if !e.copyOk then Result.FAILED else Result.SUCCEEDED
  else Result.FILES_MISSING

/-- Filesystem events of the partition steps.  Every state-changing
collaborator call of backup.cpp's partition code is recorded: archive
creation, the wipe (with its exclusion list), the extract, image creation,
mounting, the unmount attempt, and removal of the mount point. -/
inductive Ev where
  | archiveWrite (output : String) (directory : String) (excl : List String)
  | wipe (dir : String) (excl : List String)
  | extract (input : String) (dir : String)
  | createImage (image : String) (size : Nat)
  | mountSuccess (image : String)
  | mountFailed (image : String)
  | umountAttempt
  | rmdirMnt
deriving DecidableEq, Repr

/-- Oracle for `backup_directory`: opendir, the readdir loop, and the tar
archive creation. -/
structure DirBackupEnv where
  opendirOk : Bool
  readdirOk : Bool
  tarOk : Bool
deriving DecidableEq, Repr

/-- Oracle for `restore_directory`: the wipe and the tar extraction. -/
structure DirRestoreEnv where
  wipeOk : Bool
  extractOk : Bool
deriving DecidableEq, Repr

/-- `backup_directory` from backup.cpp: enumerate the directory (minus dot,
dot-dot and the exclusions) and archive it.  The archive write is attempted
only once enumeration succeeded. -/
def backup_directory (e : DirBackupEnv) (output_file directory : String)
    (exclusions : List String) : Bool × List Ev :=
  if !e.opendirOk then (false, [])
  else if !e.readdirOk then (false, [])
  else (e.tarOk, [Ev.archiveWrite output_file directory exclusions])

/-- `restore_directory` from backup.cpp: wipe the directory except the
exclusions, then extract the archive into it. -/
def restore_directory (e : DirRestoreEnv) (input_file directory : String)
    (exclusions : List String) : Bool × List Ev :=
  if !e.wipeOk then (false, [Ev.wipe directory exclusions])
  else (e.extractOk, [Ev.wipe directory exclusions, Ev.extract input_file directory])

/-- Oracle for `backup_image`: the mkdir of the mount point (true also covers
`EEXIST`), the read-only mount, the directory pass, and the unmount.  The
`fsck_ext4_image` call's result is ignored by the code and not modelled. -/
structure BackupImageEnv where
  mkdirMntOk : Bool
  mountOk : Bool
  dir : DirBackupEnv
  umountOk : Bool
deriving DecidableEq, Repr

/-- `backup_image` from backup.cpp: mount the image read-only at
`BACKUP_MNT_DIR`, run `backup_directory` against the mount point, then
unmount; a failed unmount returns false and skips the `rmdir`. -/
def backup_image (e : BackupImageEnv) (output_file image : String)
    (exclusions : List String) : Bool × List Ev :=
  if !e.mkdirMntOk then (false, [])
  else if !e.mountOk then (false, [Ev.mountFailed image])
  else
    let body := backup_directory e.dir output_file BACKUP_MNT_DIR exclusions
    if !e.umountOk then (false, Ev.mountSuccess image :: body.2 ++ [Ev.umountAttempt])
    else (body.1, Ev.mountSuccess image :: body.2 ++ [Ev.umountAttempt, Ev.rmdirMnt])

/-- Outcome of `stat` on the image file in `restore_image`. -/
inductive StatResult where
  | found
  | enoent
  | error
deriving DecidableEq, Repr

/-- Oracle for `restore_image`: parent-directory creation, the stat of the
image file, image creation, mount-point creation, the read-write mount, the
wipe/extract pass, and the unmount. -/
structure RestoreImageEnv where
  mkdirParentOk : Bool
  imageStat : StatResult
  createOk : Bool
  mkdirMntOk : Bool
  mountOk : Bool
  dir : DirRestoreEnv
  umountOk : Bool
deriving DecidableEq, Repr

/-- The mount/extract/unmount tail of `restore_image`, after the image file
is known to exist; `pre` is the trace accumulated before mounting. -/
def restore_image_mounted (e : RestoreImageEnv) (input_file image : String)
    (exclusions : List String) (pre : List Ev) : Bool × List Ev :=
  if !e.mkdirMntOk then (false, pre)
  else if !e.mountOk then (false, pre ++ [Ev.mountFailed image])
  else
    let body := restore_directory e.dir input_file BACKUP_MNT_DIR exclusions
    if !e.umountOk then
      (false, pre ++ Ev.mountSuccess image :: body.2 ++ [Ev.umountAttempt])
    else
      (body.1, pre ++ Ev.mountSuccess image :: body.2 ++ [Ev.umountAttempt, Ev.rmdirMnt])

/-- `restore_image` from backup.cpp: ensure the image's parent directory,
create the image of the given size when `stat` reports `ENOENT`, mount it
read-write, wipe-and-extract, then unmount; a failed unmount returns false
and skips the `rmdir`. -/
def restore_image (e : RestoreImageEnv) (input_file image : String)
    (size : Nat) (exclusions : List String) : Bool × List Ev :=
  if !e.mkdirParentOk then (false, [])
  else
    match e.imageStat with
    | StatResult.error => (false, [])
    | StatResult.enoent =>
      if !e.createOk then (false, [Ev.createImage image size])
      else restore_image_mounted e input_file image exclusions [Ev.createImage image size]
    | StatResult.found => restore_image_mounted e input_file image exclusions []

/-- Oracle for `backup_partition`: does the live path exist, plus the oracles
of the image-mode and directory-mode passes. -/
structure PartBackupEnv where
  pathExists : Bool
  img : BackupImageEnv
  dirEnv : DirBackupEnv
deriving DecidableEq, Repr

/-- Oracle for `restore_partition`: does the bundle archive exist, plus the
oracles of the image-mode and directory-mode passes. -/
structure PartRestoreEnv where
  archiveExists : Bool
  img : RestoreImageEnv
  dirEnv : DirRestoreEnv
deriving DecidableEq, Repr

/-- `backup_partition` from backup.cpp: `FILES_MISSING` (and no effect) when
the live path does not exist, otherwise the image or directory pass mapped to
`SUCCEEDED`/`FAILED`. -/
def backup_partition (e : PartBackupEnv) (path backup_dir archive_name : String)
    (is_image : Bool) (exclusions : List String) : Result × List Ev :=
  let archive := backup_dir ++ "/" ++ archive_name
  if e.pathExists then
    let r := if is_image then backup_image e.img archive path exclusions
             else backup_directory e.dirEnv archive path exclusions
    ((if r.1 then Result.SUCCEEDED else Result.FAILED), r.2)
  else (Result.FILES_MISSING, [])

/-- `restore_partition` from backup.cpp: `FILES_MISSING` (and no effect) when
the bundle archive does not exist, otherwise the image or directory pass
mapped to `SUCCEEDED`/`FAILED`. -/
def restore_partition (e : PartRestoreEnv) (path backup_dir archive_name : String)
    (is_image : Bool) (image_size : Nat) (exclusions : List String) :
    Result × List Ev :=
  let archive := backup_dir ++ "/" ++ archive_name
  if e.archiveExists then
    let r := if is_image then restore_image e.img archive path image_size exclusions
             else restore_directory e.dirEnv archive path exclusions
    ((if r.1 then Result.SUCCEEDED else Result.FAILED), r.2)
  else (Result.FILES_MISSING, [])

/-- Predicate picking the `mountSuccess` event. -/
def is_mount_success : Ev → Bool
  | Ev.mountSuccess _ => true
  | _ => false

/-- Predicate picking the `umountAttempt` event. -/
def is_umount_attempt : Ev → Bool
  | Ev.umountAttempt => true
  | _ => false

/-- Predicate picking the `rmdirMnt` event. -/
def is_rmdir_mnt : Ev → Bool
  | Ev.rmdirMnt => true
  | _ => false

/-- The ROM descriptor fields `backup_rom`/`restore_rom` read: identifier,
resolved partition paths, and the image-mode flags. -/
structure Rom where
  id : String
  system_path : String
  cache_path : String
  data_path : String
  boot_image_path : String
  config_path : String
  thumbnail_path : String
  system_is_image : Bool
  cache_is_image : Bool
  data_is_image : Bool
deriving DecidableEq, Repr

/-- The five coordinator steps, in the fixed order the code runs them. -/
inductive StepId where
  | boot
  | config
  | system
  | cache
  | data
deriving DecidableEq, Repr

/-- Coordinator-level events: a `step` marker for every step that ran (with
its result), a `call` marker recording the exclusion list passed to a
partition step, and the partition step's own filesystem events. -/
inductive REv where
  | step (id : StepId) (res : Result)
  | call (id : StepId) (excl : List String)
  | sub (id : StepId) (e : Ev)
deriving DecidableEq, Repr

/-- One `if (targets & BIT) { if (step() == FAILED) return false; }` block of
the coordinator: whether the bit is selected, the step's identity and result,
and the step's own events. -/
structure ChainEntry where
  sel : Bool
  id : StepId
  res : Result
  tr : List REv

/-- The coordinator's step sequencing: run each selected entry in order,
recording its events and its `step` marker, and abort with overall failure as
soon as a step returns `FAILED`. -/
def run_chain : List ChainEntry → Bool × List REv
  | [] => (true, [])
  | e :: rest =>
    if e.sel then
      if e.res = Result.FAILED then (false, e.tr ++ [REv.step e.id e.res])
      else
        let r := run_chain rest
        (r.1, (e.tr ++ [REv.step e.id e.res]) ++ r.2)
    else run_chain rest

/-- The executed steps (with results) of a coordinator trace. -/
def stepsOf (tr : List REv) : List (StepId × Result) :=
  tr.filterMap fun e =>
    match e with
    | REv.step i r => some (i, r)
    | _ => none

/-- The partition-step calls (with exclusion lists) of a coordinator trace. -/
def callsOf (tr : List REv) : List (StepId × List String) :=
  tr.filterMap fun e =>
    match e with
    | REv.call i x => some (i, x)
    | _ => none

/-- Specification-side: truncate a step list at its first `FAILED` entry,
keeping that entry (the failing step did run). -/
def cutFailed : List (StepId × Result) → List (StepId × Result)
  | [] => []
  | s :: rest => if s.2 = Result.FAILED then [s] else s :: cutFailed rest

/-- The selected entries of a chain, as (step, result) pairs in order. -/
def selSteps (l : List ChainEntry) : List (StepId × Result) :=
  l.filterMap fun e => if e.sel then some (e.id, e.res) else none

/-- Specification-side, written from the claim: the steps a target set
selects, in the fixed order Boot, Config, System, Cache, Data, paired with
the results the respective step oracles give. -/
def sel_steps_spec (targets : Nat)
    (bootRes cfgRes sysRes cacheRes dataRes : Result) :
    List (StepId × Result) :=
  (if targets &&& BACKUP_TARGET_BOOT != 0 then [(StepId.boot, bootRes)] else [])
    ++ (if targets &&& BACKUP_TARGET_CONFIG != 0 then [(StepId.config, cfgRes)] else [])
    ++ (if targets &&& BACKUP_TARGET_SYSTEM != 0 then [(StepId.system, sysRes)] else [])
    ++ (if targets &&& BACKUP_TARGET_CACHE != 0 then [(StepId.cache, cacheRes)] else [])
    ++ (if targets &&& BACKUP_TARGET_DATA != 0 then [(StepId.data, dataRes)] else [])

/-- Oracle for one whole `backup_rom` invocation. -/
structure RomBackupEnv where
  boot : BootBackupEnv
  config : ConfigsBackupEnv
  system : PartBackupEnv
  cache : PartBackupEnv
  data : PartBackupEnv
deriving Repr

/-- Oracle for one whole `restore_rom` invocation: the housekeeping-directory
creation, the boot and config step oracles, the loaded boot image's ramdisk,
the queried size of the live system partition
(`util::mount_get_total_size`, 0 meaning the query failed), and the three
partition step oracles. -/
structure RomRestoreEnv where
  mkdirMultibootOk : Bool
  boot : RestoreBootEnv
  bootRamdisk : List CpioEntry
  config : ConfigsRestoreEnv
  systemSize : Nat
  system : PartRestoreEnv
  cache : PartRestoreEnv
  data : PartRestoreEnv
deriving Repr

/-- The System entry of `backup_rom` (exclusions `{"multiboot"}`). -/
def backup_system_entry (rom : Rom) (output_dir : String) (targets : Nat)
    (env : RomBackupEnv) : ChainEntry :=
  let s := backup_partition env.system rom.system_path output_dir
      BACKUP_NAME_SYSTEM rom.system_is_image ["multiboot"]
  { sel := targets &&& BACKUP_TARGET_SYSTEM != 0, id := StepId.system, res := s.1,
    tr := REv.call StepId.system ["multiboot"] :: s.2.map (REv.sub StepId.system) }

/-- The Cache entry of `backup_rom` (exclusions `{"multiboot"}`). -/
def backup_cache_entry (rom : Rom) (output_dir : String) (targets : Nat)
    (env : RomBackupEnv) : ChainEntry :=
  let s := backup_partition env.cache rom.cache_path output_dir
      BACKUP_NAME_CACHE rom.cache_is_image ["multiboot"]
  { sel := targets &&& BACKUP_TARGET_CACHE != 0, id := StepId.cache, res := s.1,
    tr := REv.call StepId.cache ["multiboot"] :: s.2.map (REv.sub StepId.cache) }

/-- The Data entry of `backup_rom` (exclusions `{"media", "multiboot"}`). -/
def backup_data_entry (rom : Rom) (output_dir : String) (targets : Nat)
    (env : RomBackupEnv) : ChainEntry :=
  let s := backup_partition env.data rom.data_path output_dir
      BACKUP_NAME_DATA rom.data_is_image ["media", "multiboot"]
  { sel := targets &&& BACKUP_TARGET_DATA != 0, id := StepId.data, res := s.1,
    tr := REv.call StepId.data ["media", "multiboot"] :: s.2.map (REv.sub StepId.data) }

/-- `backup_rom` as the chain of its five guarded blocks, in source order. -/
def backup_chain (rom : Rom) (output_dir : String) (targets : Nat)
    (env : RomBackupEnv) : List ChainEntry :=
  [ { sel := targets &&& BACKUP_TARGET_BOOT != 0, id := StepId.boot,
      res := backup_boot_image env.boot, tr := [] },
    { sel := targets &&& BACKUP_TARGET_CONFIG != 0, id := StepId.config,
      res := (backup_configs env.config).1, tr := [] },
    backup_system_entry rom output_dir targets env,
    backup_cache_entry rom output_dir targets env,
    backup_data_entry rom output_dir targets env ]

/-- `backup_rom` from backup.cpp: reject an empty target set, then run the
Boot, Config, System, Cache, Data blocks in order, aborting on `FAILED`. -/
def backup_rom (rom : Rom) (output_dir : String) (targets : Nat)
    (env : RomBackupEnv) : Bool × List REv :=
  if targets = 0 then (false, [])
  else run_chain (backup_chain rom output_dir targets env)

/-- The System entry of `restore_rom` (exclusions `{}`, the queried system
partition size as image size). -/
def restore_system_entry (rom : Rom) (input_dir : String) (targets : Nat)
    (env : RomRestoreEnv) : ChainEntry :=
  let s := restore_partition env.system rom.system_path input_dir
      BACKUP_NAME_SYSTEM rom.system_is_image env.systemSize []
  { sel := targets &&& BACKUP_TARGET_SYSTEM != 0, id := StepId.system, res := s.1,
    tr := REv.call StepId.system [] :: s.2.map (REv.sub StepId.system) }

/-- The Cache entry of `restore_rom` (exclusions `{}`, default image size). -/
def restore_cache_entry (rom : Rom) (input_dir : String) (targets : Nat)
    (env : RomRestoreEnv) : ChainEntry :=
  let s := restore_partition env.cache rom.cache_path input_dir
      BACKUP_NAME_CACHE rom.cache_is_image DEFAULT_IMAGE_SIZE []
  { sel := targets &&& BACKUP_TARGET_CACHE != 0, id := StepId.cache, res := s.1,
    tr := REv.call StepId.cache [] :: s.2.map (REv.sub StepId.cache) }

/-- The Data entry of `restore_rom` (exclusions `{"media"}`, default image
size). -/
def restore_data_entry (rom : Rom) (input_dir : String) (targets : Nat)
    (env : RomRestoreEnv) : ChainEntry :=
  let s := restore_partition env.data rom.data_path input_dir
      BACKUP_NAME_DATA rom.data_is_image DEFAULT_IMAGE_SIZE ["media"]
  { sel := targets &&& BACKUP_TARGET_DATA != 0, id := StepId.data, res := s.1,
    tr := REv.call StepId.data ["media"] :: s.2.map (REv.sub StepId.data) }

/-- The Boot entry of `restore_rom`. -/
def restore_boot_entry (rom : Rom) (targets : Nat) (env : RomRestoreEnv) :
    ChainEntry :=
  { sel := targets &&& BACKUP_TARGET_BOOT != 0, id := StepId.boot,
    res := (restore_boot_image env.boot rom.id env.bootRamdisk).1, tr := [] }

/-- The Config entry of `restore_rom`. -/
def restore_config_entry (targets : Nat) (env : RomRestoreEnv) : ChainEntry :=
  { sel := targets &&& BACKUP_TARGET_CONFIG != 0, id := StepId.config,
    res := (restore_configs env.config).1, tr := [] }

/-- The five guarded blocks of `restore_rom`, in source order. -/
def restore_chain (rom : Rom) (input_dir : String) (targets : Nat)
    (env : RomRestoreEnv) : List ChainEntry :=
  [ restore_boot_entry rom targets env,
    restore_config_entry targets env,
    restore_system_entry rom input_dir targets env,
    restore_cache_entry rom input_dir targets env,
    restore_data_entry rom input_dir targets env ]

/-- `restore_rom` from backup.cpp: reject an empty target set, create the
ROM's housekeeping directory, run the Boot and Config blocks, and — when the
System target is selected — query the live system partition's total size
before the System block, aborting the whole restore when the query returns 0;
then run the System, Cache and Data blocks, aborting on `FAILED`.
(`fix_multiboot_permissions` returns no result and is not modelled.) -/
def restore_rom (rom : Rom) (input_dir : String) (targets : Nat)
    (env : RomRestoreEnv) : Bool × List REv :=
  if targets = 0 then (false, [])
  else if !env.mkdirMultibootOk then (false, [])
  else
    let bc := run_chain [restore_boot_entry rom targets env,
                         restore_config_entry targets env]
    if !bc.1 then (false, bc.2)
    else if (targets &&& BACKUP_TARGET_SYSTEM != 0) && env.systemSize == 0 then
      (false, bc.2)
    else
      let rest := run_chain [restore_system_entry rom input_dir targets env,
                             restore_cache_entry rom input_dir targets env,
                             restore_data_entry rom input_dir targets env]
      (rest.1, bc.2 ++ rest.2)

/-- A sample ROM descriptor with directory-mode partitions. -/
def rom_sample : Rom :=
  ⟨"primary", "/raw/system", "/raw/cache", "/raw/data", "/raw/boot.img",
   "/raw/config.json", "/raw/thumbnail.webp", false, false, false⟩

/-- A directory-backup oracle where everything succeeds. -/
def dir_bk_ok : DirBackupEnv := ⟨true, true, true⟩

/-- A directory-restore oracle where everything succeeds. -/
def dir_rs_ok : DirRestoreEnv := ⟨true, true⟩

/-- An image-backup oracle where everything succeeds except the unmount. -/
def img_bk_umount_fail : BackupImageEnv := ⟨true, true, dir_bk_ok, false⟩

/-- An image-restore oracle where everything succeeds except the unmount. -/
def img_rs_umount_fail : RestoreImageEnv :=
  ⟨true, StatResult.found, true, true, true, dir_rs_ok, false⟩

/-- An image-backup oracle where everything succeeds. -/
def img_bk_ok : BackupImageEnv := ⟨true, true, dir_bk_ok, true⟩

/-- An image-restore oracle where everything succeeds. -/
def img_rs_ok : RestoreImageEnv :=
  ⟨true, StatResult.found, true, true, true, dir_rs_ok, true⟩

/-- A partition-backup oracle whose live path is missing. -/
def part_bk_missing : PartBackupEnv := ⟨false, img_bk_ok, dir_bk_ok⟩

/-- A partition-restore oracle whose bundle archive is missing. -/
def part_rs_missing : PartRestoreEnv := ⟨false, img_rs_ok, dir_rs_ok⟩

/-- A partition-backup oracle where everything succeeds. -/
def part_bk_ok : PartBackupEnv := ⟨true, img_bk_ok, dir_bk_ok⟩

/-- A partition-restore oracle where everything succeeds. -/
def part_rs_ok : PartRestoreEnv := ⟨true, img_rs_ok, dir_rs_ok⟩

/-- A boot-backup oracle where everything succeeds. -/
def boot_bk_ok : BootBackupEnv := ⟨true, true⟩

/-- A boot-restore oracle where everything succeeds (non-Loki image). -/
def boot_rs_ok : RestoreBootEnv := ⟨true, true, true, true, false, true, true⟩

/-- A configs-backup oracle where everything succeeds. -/
def cfg_bk_ok : ConfigsBackupEnv := ⟨true, true, true, true⟩

/-- A configs-restore oracle where everything succeeds. -/
def cfg_rs_ok : ConfigsRestoreEnv := ⟨true, true, true, true⟩

/-- A ROM-backup oracle where everything succeeds. -/
def rom_backup_env_ok : RomBackupEnv :=
  ⟨boot_bk_ok, cfg_bk_ok, part_bk_ok, part_bk_ok, part_bk_ok⟩

/-- A ROM-restore oracle where the system-partition size query returns 0 and
the system archive is moreover absent from the bundle. -/
def rom_restore_env_size0 : RomRestoreEnv :=
  ⟨true, boot_rs_ok, [], cfg_rs_ok, 0, part_rs_missing, part_rs_ok, part_rs_ok⟩

/-- A ROM-restore oracle where everything succeeds. -/
def rom_restore_env_ok : RomRestoreEnv :=
  ⟨true, boot_rs_ok, [], cfg_rs_ok, 1024, part_rs_ok, part_rs_ok, part_rs_ok⟩

/-- The first-character scan accepts exactly the lists not headed by a dot. -/
theorem startsWithDot_iff (cs : List Char) :
    startsWithDot cs = true ↔ cs.head? = some '.' := by
  cases cs <;> simp [startsWithDot]

/-- The dot-dot scan finds exactly the lists containing `".."` as a
contiguous substring. -/
theorem hasDotDot_iff (cs : List Char) :
    hasDotDot cs = true ↔ ∃ l r, cs = l ++ '.' :: '.' :: r := by
  induction cs with
  | nil => simp [hasDotDot]
  | cons a t ih =>
    cases t with
    | nil =>
      simp only [hasDotDot]
      constructor
      · intro h
        simp at h
      · rintro ⟨l, r, h⟩
        rcases l with _ | ⟨x, l⟩ <;> simp_all
    | cons b t2 =>
      rw [hasDotDot, Bool.or_eq_true, Bool.and_eq_true, beq_iff_eq, beq_iff_eq]
      constructor
      · rintro (⟨rfl, rfl⟩ | h)
        · exact ⟨[], t2, rfl⟩
        · obtain ⟨l, r, hl⟩ := ih.mp h
          exact ⟨a :: l, r, by simp [hl]⟩
      · rintro ⟨l, r, hl⟩
        rcases l with _ | ⟨x, l⟩
        · left
          refine ⟨?_, ?_⟩ <;> simp_all
        · right
          apply ih.mpr
          refine ⟨l, r, ?_⟩
          simpa using congrArg List.tail hl

/-- Claim C8: backup-name validation accepts a name exactly when it is
non-empty, does not start with a dot, contains no occurrence of `".."`, and
contains no slash; in particular the empty name, `".hidden"`, `"a/b"` and
`"x..y"` are rejected while `"2024.01.01-00.00.00"` is accepted. -/
theorem C8_name_validation :
    (∀ s : String, is_valid_backup_name s = true ↔
        s.data ≠ [] ∧ s.data.head? ≠ some '.'
          ∧ (¬ ∃ l r, s.data = l ++ '.' :: '.' :: r) ∧ '/' ∉ s.data)
    ∧ is_valid_backup_name "" = false
    ∧ is_valid_backup_name ".hidden" = false
    ∧ is_valid_backup_name "a/b" = false
    ∧ is_valid_backup_name "x..y" = false
    ∧ is_valid_backup_name "2024.01.01-00.00.00" = true := by
  refine ⟨fun s => ?_, by decide, by decide, by decide, by decide, by decide⟩
  simp only [is_valid_backup_name, Bool.and_eq_true, Bool.not_eq_true']
  rw [List.isEmpty_eq_false_iff_exists_mem]
  constructor
  · rintro ⟨⟨⟨h1, h2⟩, h3⟩, h4⟩
    refine ⟨?_, ?_, ?_, ?_⟩
    · rcases h1 with ⟨x, hx⟩
      intro hnil
      simp [hnil] at hx
    · intro h
      have := (startsWithDot_iff s.data).mpr h
      simp [this] at h2
    · intro h
      have := (hasDotDot_iff s.data).mpr h
      simp [this] at h3
    · intro h
      have : s.data.any (fun c => c == '/') = true := by
        rw [List.any_eq_true]
        exact ⟨'/', h, by simp⟩
      simp [this] at h4
  · rintro ⟨h1, h2, h3, h4⟩
    refine ⟨⟨⟨?_, ?_⟩, ?_⟩, ?_⟩
    · exact List.exists_mem_of_ne_nil _ h1
    · rw [Bool.eq_false_iff]
      intro h
      exact h2 ((startsWithDot_iff s.data).mp h)
    · rw [Bool.eq_false_iff]
      intro h
      exact h3 ((hasDotDot_iff s.data).mp h)
    · rw [Bool.eq_false_iff]
      intro h
      rw [List.any_eq_true] at h
      obtain ⟨c, hc, hceq⟩ := h
      rw [beq_iff_eq] at hceq
      subst hceq
      exact h4 hc

/-- The backup side of the Config/Thumbnail step equals its specification. -/
theorem backup_configs_eq (e : ConfigsBackupEnv) :
    backup_configs e
      = (configs_result_spec e.configExists e.configCopyOk e.thumbExists e.thumbCopyOk,
         configs_trace_spec e.configExists e.configCopyOk e.thumbExists) := by
  rcases e with ⟨a, b, c, d⟩
  cases a <;> cases b <;> cases c <;> cases d <;> rfl

/-- The restore side of the Config/Thumbnail step equals its specification. -/
theorem restore_configs_eq (e : ConfigsRestoreEnv) :
    restore_configs e
      = (configs_result_spec e.configBakExists e.configCopyOk e.thumbBakExists e.thumbCopyOk,
         configs_trace_spec e.configBakExists e.configCopyOk e.thumbBakExists) := by
  rcases e with ⟨a, b, c, d⟩
  cases a <;> cases b <;> cases c <;> cases d <;> rfl

/-- Claim C5: in the Config/Thumbnail step (both directions), the first
failing sub-copy makes the step return `FAILED` immediately (the thumbnail is
not attempted after a failed config copy); if every existing source copies
but at least one source is missing the step returns `FILES_MISSING`; if both
exist and both copy it returns `SUCCEEDED`. -/
theorem C5_configs :
    (∀ e : ConfigsBackupEnv, backup_configs e
      = (configs_result_spec e.configExists e.configCopyOk e.thumbExists e.thumbCopyOk,
         configs_trace_spec e.configExists e.configCopyOk e.thumbExists))
    ∧ (∀ e : ConfigsRestoreEnv, restore_configs e
      = (configs_result_spec e.configBakExists e.configCopyOk e.thumbBakExists e.thumbCopyOk,
         configs_trace_spec e.configBakExists e.configCopyOk e.thumbBakExists)) :=
  ⟨backup_configs_eq, restore_configs_eq⟩

/-- Claim C7: a partition backup whose live path does not exist returns
`FILES_MISSING` with an empty effect trace (nothing written to the bundle); a
partition restore whose bundle archive does not exist returns `FILES_MISSING`
with an empty effect trace (the live target untouched). -/
theorem C7_missing_inputs :
    ∀ (eb : PartBackupEnv) (er : PartRestoreEnv) (path bdir an : String)
      (ib ir : Bool) (sz : Nat) (xb xr : List String),
      (eb.pathExists = false →
        backup_partition eb path bdir an ib xb = (Result.FILES_MISSING, []))
      ∧ (er.archiveExists = false →
        restore_partition er path bdir an ir sz xr = (Result.FILES_MISSING, [])) := by
  intro eb er path bdir an ib ir sz xb xr
  constructor <;> intro h <;> simp [backup_partition, restore_partition, h]

/-- Witness for C7 at concrete missing inputs. -/
theorem C7_missing_inputs_witness :
    backup_partition part_bk_missing "/raw/system" "/bk" BACKUP_NAME_SYSTEM
        false ["multiboot"] = (Result.FILES_MISSING, [])
    ∧ restore_partition part_rs_missing "/raw/system" "/bk" BACKUP_NAME_SYSTEM
        false 1024 [] = (Result.FILES_MISSING, []) :=
  ⟨(C7_missing_inputs part_bk_missing part_rs_missing "/raw/system" "/bk"
      BACKUP_NAME_SYSTEM false false 1024 ["multiboot"] []).1 rfl,
   (C7_missing_inputs part_bk_missing part_rs_missing "/raw/system" "/bk"
      BACKUP_NAME_SYSTEM false false 1024 ["multiboot"] []).2 rfl⟩

/-- Filtering the `romid` entries of `set_rom_id rid l` yields exactly the
one fresh entry, whatever `l` contained. -/
theorem filter_set_rom_id (rid : String) (l : List CpioEntry) :
    (set_rom_id rid l).filter (fun en => en.name == "romid")
      = [⟨"romid", rid, 0o664⟩] := by
  unfold set_rom_id cpio_addFile cpio_remove
  rw [List.filter_append]
  have h1 : (l.filter (fun e => e.name ≠ "romid")).filter
      (fun en => en.name == "romid") = [] := by
    rw [List.filter_eq_nil_iff]
    intro a ha
    have hk := List.of_mem_filter ha
    simp only [ne_eq, decide_not, Bool.not_eq_true'] at hk
    simp only [beq_iff_eq]
    exact of_decide_eq_false hk
  rw [h1]
  simp

/-- Claim C6: the Firmware Patch restore step removes any existing `romid`
ramdisk entry and inserts a single fresh one with the ROM identifier as
content and mode 0664; on a fully successful run the written ramdisk is
`set_rom_id rid ramdisk`, and applying the transformation any positive
number of times leaves exactly one `romid` entry with that content
(idempotence, no duplicate accumulation). -/
theorem C6_romid_idempotent :
    ∀ (e : RestoreBootEnv) (rid : String) (rd : List CpioEntry) (n : Nat),
      e.backupExists = true → e.loadFileOk = true → e.cpioLoadOk = true →
      e.createDataOk = true → (e.wasLoki = true → e.abootReadOk = true) →
      e.createFileOk = true → 1 ≤ n →
      (restore_boot_image e rid rd).1 = Result.SUCCEEDED
      ∧ (restore_boot_image e rid rd).2 = some (set_rom_id rid rd)
      ∧ ((set_rom_id rid)^[n] rd).filter (fun en => en.name == "romid")
          = [⟨"romid", rid, 0o664⟩] := by
  intro e rid rd n h1 h2 h3 h4 h5 h6 hn
  have hiter : ((set_rom_id rid)^[n] rd).filter (fun en => en.name == "romid")
      = [⟨"romid", rid, 0o664⟩] := by
    obtain ⟨m, rfl⟩ := Nat.exists_eq_add_of_le hn
    rw [Nat.add_comm 1 m, Function.iterate_succ_apply']
    exact filter_set_rom_id rid _
  have hloki : (e.wasLoki && !e.abootReadOk) = false := by
    cases hw : e.wasLoki
    · simp
    · simp [h5 hw]
  refine ⟨?_, ?_, hiter⟩ <;> simp [restore_boot_image, h1, h2, h3, h4, h6, hloki]

/-- Witness for C6 at a concrete environment, empty ramdisk and two runs. -/
theorem C6_romid_idempotent_witness :
    (restore_boot_image boot_rs_ok "primary" []).1 = Result.SUCCEEDED
    ∧ (restore_boot_image boot_rs_ok "primary" []).2 = some (set_rom_id "primary" [])
    ∧ ((set_rom_id "primary")^[2] []).filter (fun en => en.name == "romid")
        = [⟨"romid", "primary", 0o664⟩] :=
  C6_romid_idempotent boot_rs_ok "primary" [] 2 rfl rfl rfl rfl (fun h => rfl)
    rfl (by decide)

/-- Claim C1 as frozen is false on the code: with the archive/extract body
succeeding (`tarOk`/`extractOk` true) and the unmount failing, both
`backup_image` and `restore_image` return failure — the unmount failure does
downgrade the step's result. -/
theorem C1_counterexample :
    img_bk_umount_fail.dir.tarOk = true
    ∧ (backup_image img_bk_umount_fail "/bk/system.tar" "/raw/system.img"
        ["multiboot"]).1 = false
    ∧ img_rs_umount_fail.dir.extractOk = true
    ∧ (restore_image img_rs_umount_fail "/bk/system.tar" "/raw/system.img"
        1024 []).1 = false :=
  ⟨rfl, rfl, rfl, rfl⟩

/-- Claim C1 amended: in image-mode backup and restore, a failed unmount
after a successful archive/extract pass downgrades the step's result to
failure (it is surfaced as an error log and flips the result); only when the
unmount succeeds does the step report the archive/extract body's result. -/
theorem C1_amended :
    ∀ (eb : BackupImageEnv) (er : RestoreImageEnv) (o i inp img : String)
      (n : Nat) (x y : List String),
      (eb.mountOk = true → eb.umountOk = false → (backup_image eb o i x).1 = false)
      ∧ (eb.mkdirMntOk = true → eb.mountOk = true → eb.umountOk = true →
          (backup_image eb o i x).1 = (backup_directory eb.dir o BACKUP_MNT_DIR x).1)
      ∧ (er.mountOk = true → er.umountOk = false →
          (restore_image er inp img n y).1 = false)
      ∧ (er.mkdirParentOk = true → er.imageStat ≠ StatResult.error →
          (er.imageStat = StatResult.enoent → er.createOk = true) →
          er.mkdirMntOk = true → er.mountOk = true → er.umountOk = true →
          (restore_image er inp img n y).1
            = (restore_directory er.dir inp BACKUP_MNT_DIR y).1) := by
  intro eb er o i inp img n x y
  refine ⟨fun h1 h2 => ?_, fun h1 h2 h3 => ?_, fun h1 h2 => ?_,
          fun h1 h2 h3 h4 h5 h6 => ?_⟩
  · cases hm : eb.mkdirMntOk <;> simp [backup_image, hm, h1, h2]
  · simp [backup_image, h1, h2, h3]
  · rcases er with ⟨pp, st, co, mm, mo, d, um⟩
    simp only at h1 h2
    subst h1 h2
    cases pp <;> cases st <;> cases co <;> cases mm <;>
      simp [restore_image, restore_image_mounted]
  · rcases er with ⟨pp, st, co, mm, mo, d, um⟩
    simp only at h1 h4 h5 h6
    subst h1 h4 h5 h6
    cases st
    · simp [restore_image, restore_image_mounted]
    · simp only at h3
      have hco : co = true := h3 trivial
      simp [restore_image, restore_image_mounted, hco]
    · exact absurd rfl h2

/-- Witness for C1's amended claim at concrete environments. -/
theorem C1_amended_witness :
    (backup_image img_bk_umount_fail "/o" "/i" []).1 = false
    ∧ (backup_image img_bk_ok "/o" "/i" []).1
        = (backup_directory dir_bk_ok "/o" BACKUP_MNT_DIR []).1 :=
  ⟨(C1_amended img_bk_umount_fail img_rs_ok "/o" "/i" "/in" "/img" 1 [] []).1
      rfl rfl,
   (C1_amended img_bk_ok img_rs_ok "/o" "/i" "/in" "/img" 1 [] []).2.1
      rfl rfl rfl⟩

/-- Claim C3 as frozen is false on the code: a successful mount followed by a
failed unmount leaves the mount-point directory in place (no `rmdir` on that
path), so "the mount-point directory is removed afterward" does not hold for
every successful mount. -/
theorem C3_counterexample :
    ((backup_image img_bk_umount_fail "/o" "/i" []).2.countP is_mount_success = 1)
    ∧ ((backup_image img_bk_umount_fail "/o" "/i" []).2.countP is_rmdir_mnt = 0)
    ∧ ((restore_image img_rs_umount_fail "/in" "/img" 7 []).2.countP
        is_mount_success = 1)
    ∧ ((restore_image img_rs_umount_fail "/in" "/img" 7 []).2.countP
        is_rmdir_mnt = 0) :=
  ⟨rfl, rfl, rfl, rfl⟩

/-- Claim C3 amended: in every image-mode backup or restore step, every
successful mount is followed by exactly one unmount attempt (even when the
archive/extract body failed, and never without a successful mount); the
mount-point directory is removed exactly when the unmount succeeds. -/
theorem C3_amended :
    ∀ (eb : BackupImageEnv) (er : RestoreImageEnv) (o i inp img : String)
      (n : Nat) (x y : List String),
      ((backup_image eb o i x).2.countP is_mount_success ≤ 1)
      ∧ ((backup_image eb o i x).2.countP is_umount_attempt
          = (backup_image eb o i x).2.countP is_mount_success)
      ∧ ((backup_image eb o i x).2.countP is_rmdir_mnt
          = if eb.umountOk then (backup_image eb o i x).2.countP is_mount_success
            else 0)
      ∧ ((restore_image er inp img n y).2.countP is_mount_success ≤ 1)
      ∧ ((restore_image er inp img n y).2.countP is_umount_attempt
          = (restore_image er inp img n y).2.countP is_mount_success)
      ∧ ((restore_image er inp img n y).2.countP is_rmdir_mnt
          = if er.umountOk then
              (restore_image er inp img n y).2.countP is_mount_success
            else 0) := by
  intro eb er o i inp img n x y
  rcases eb with ⟨mk, mo, ⟨od, rd, tk⟩, um⟩
  rcases er with ⟨pp, st, co, mm, mo2, ⟨wp, ex⟩, um2⟩
  refine ⟨?_, ?_, ?_, ?_, ?_, ?_⟩ <;>
    [skip; skip; skip;
     (cases pp <;> cases st <;> cases co <;> cases mm <;> cases mo2 <;>
        cases wp <;> cases um2 <;>
        simp [restore_image, restore_image_mounted, restore_directory,
              is_mount_success, is_umount_attempt, is_rmdir_mnt]);
     (cases pp <;> cases st <;> cases co <;> cases mm <;> cases mo2 <;>
        cases wp <;> cases um2 <;>
        simp [restore_image, restore_image_mounted, restore_directory,
              is_mount_success, is_umount_attempt, is_rmdir_mnt]);
     (cases pp <;> cases st <;> cases co <;> cases mm <;> cases mo2 <;>
        cases wp <;> cases um2 <;>
        simp [restore_image, restore_image_mounted, restore_directory,
              is_mount_success, is_umount_attempt, is_rmdir_mnt])] <;>
    (cases mk <;> cases mo <;> cases od <;> cases rd <;> cases um <;>
      simp [backup_image, backup_directory,
            is_mount_success, is_umount_attempt, is_rmdir_mnt])

/-- A token with a bitmask makes the parse loop or that bitmask in and
continue. -/
theorem parse_tokens_cons_valid (t : List Char) (ts : List (List Char))
    (acc b : Nat) (hb : token_bits t = some b) :
    parse_tokens (t :: ts) acc = parse_tokens ts (acc ||| b) := by
  unfold token_bits at hb
  simp only [parse_tokens]
  split_ifs at hb ⊢ <;> simp_all

/-- An unrecognized token makes the parse loop return 0 at once. -/
theorem parse_tokens_cons_invalid (t : List Char) (ts : List (List Char))
    (acc : Nat) (hb : token_bits t = none) :
    parse_tokens (t :: ts) acc = 0 := by
  unfold token_bits at hb
  simp only [parse_tokens]
  split_ifs at hb ⊢
  simp_all

/-- Closed form of the parse loop: the accumulator ored with the bits of all
tokens when all are recognized, 0 otherwise. -/
theorem parse_tokens_eq (l : List (List Char)) (acc : Nat) :
    parse_tokens l acc
      = if l.all (fun t => (token_bits t).isSome) then acc ||| or_bits l
        else 0 := by
  induction l generalizing acc with
  | nil => simp [parse_tokens, or_bits]
  | cons t ts ih =>
    cases hb : token_bits t with
    | none =>
      rw [parse_tokens_cons_invalid t ts acc hb]
      simp [List.all_cons, hb]
    | some b =>
      rw [parse_tokens_cons_valid t ts acc b hb, ih]
      have hor : or_bits (t :: ts) = b ||| or_bits ts := by
        simp [or_bits, hb]
      simp only [List.all_cons, hb, Option.isSome_some, Bool.true_and, hor]
      by_cases hall : ts.all (fun t => (token_bits t).isSome) = true
      · rw [if_pos hall, if_pos hall, Nat.lor_assoc]
      · rw [if_neg hall, if_neg hall]

/-- A list-`all` is invariant under permutation. -/
theorem all_perm {α : Type} {l₁ l₂ : List α} (p : l₁.Perm l₂)
    (f : α → Bool) : l₁.all f = l₂.all f := by
  induction p with
  | nil => rfl
  | cons x p ih => simp [ih]
  | swap x y l => simp [← Bool.and_assoc, Bool.and_comm (f y) (f x)]
  | trans p q ih1 ih2 => exact ih1.trans ih2

/-- The ored bits of a token list are invariant under permutation. -/
theorem or_bits_perm {l₁ l₂ : List (List Char)} (p : l₁.Perm l₂) :
    or_bits l₁ = or_bits l₂ := by
  unfold or_bits
  induction p with
  | nil => rfl
  | cons x p ih => simp [ih]
  | swap x y l =>
    simp only [List.foldr_cons]
    rw [← Nat.lor_assoc, Nat.lor_comm ((token_bits y).getD 0)
        ((token_bits x).getD 0), Nat.lor_assoc]
  | trans p q ih1 ih2 => exact ih1.trans ih2

/-- Oring in the bits of a token already in the list changes nothing. -/
theorem or_bits_mem_absorb {t : List Char} {l : List (List Char)} (h : t ∈ l) :
    (token_bits t).getD 0 ||| or_bits l = or_bits l := by
  induction l with
  | nil => cases h
  | cons x xs ih =>
    rcases List.mem_cons.mp h with rfl | hmem
    · show (token_bits t).getD 0 ||| or_bits (t :: xs) = or_bits (t :: xs)
      simp only [or_bits, List.foldr_cons, ← Nat.lor_assoc, Nat.or_self]
    · simp only [or_bits, List.foldr_cons] at ih ⊢
      rw [← Nat.lor_assoc, Nat.lor_comm ((token_bits t).getD 0)
          ((token_bits x).getD 0), Nat.lor_assoc, ih hmem]

/-- Claim C4: target-set parsing splits on commas and ors each recognized
token's bits together, `all` giving the full mask; any unrecognized token —
the empty input included — makes the whole parse return the empty set, never
a partial one; the result is invariant under token order and repetition, and
`parse("all")` equals `parse("system,cache,data,boot,config")`. -/
theorem C4_parse_targets :
    parse_targets_string "system" = BACKUP_TARGET_SYSTEM
    ∧ parse_targets_string "cache" = BACKUP_TARGET_CACHE
    ∧ parse_targets_string "data" = BACKUP_TARGET_DATA
    ∧ parse_targets_string "boot" = BACKUP_TARGET_BOOT
    ∧ parse_targets_string "config" = BACKUP_TARGET_CONFIG
    ∧ parse_targets_string "all" = BACKUP_TARGET_ALL
    ∧ parse_targets_string "all" = parse_targets_string "system,cache,data,boot,config"
    ∧ parse_targets_string "" = 0
    ∧ parse_targets_string "bogus" = 0
    ∧ (∀ s : String, (∃ t ∈ split_go [] s.data, token_bits t = none) →
        parse_targets_string s = 0)
    ∧ (∀ l₁ l₂ : List (List Char), l₁.Perm l₂ →
        parse_tokens l₁ 0 = parse_tokens l₂ 0)
    ∧ (∀ (t : List Char) (l : List (List Char)), t ∈ l →
        parse_tokens (t :: l) 0 = parse_tokens l 0) := by
  refine ⟨by decide, by decide, by decide, by decide, by decide, by decide,
          by decide, by decide, by decide, fun s ht => ?_, fun l₁ l₂ p => ?_,
          fun t l hm => ?_⟩
  · unfold parse_targets_string
    rw [parse_tokens_eq]
    obtain ⟨t, hmem, hnone⟩ := ht
    have : (split_go [] s.data).all (fun t => (token_bits t).isSome) = false := by
      rw [Bool.eq_false_iff]
      intro hall
      rw [List.all_eq_true] at hall
      have := hall t hmem
      rw [hnone] at this
      simp at this
    simp [this]
  · rw [parse_tokens_eq, parse_tokens_eq, all_perm p, or_bits_perm p]
  · rw [parse_tokens_eq, parse_tokens_eq]
    have hall : (t :: l).all (fun t => (token_bits t).isSome)
        = l.all (fun t => (token_bits t).isSome) := by
      by_cases h : l.all (fun t => (token_bits t).isSome) = true
      · rw [h, List.all_cons, h]
        rw [List.all_eq_true] at h
        simp [h t hm]
      · have hf : (l.all fun t => (token_bits t).isSome) = false :=
          Bool.eq_false_iff.mpr h
        rw [List.all_cons, hf, Bool.and_false]
    rw [hall]
    by_cases h : l.all (fun t => (token_bits t).isSome) = true
    · rw [if_pos h, if_pos h]
      have hor : or_bits (t :: l) = (token_bits t).getD 0 ||| or_bits l := by
        simp [or_bits]
      rw [hor, or_bits_mem_absorb hm]
    · rw [if_neg h, if_neg h]

/-- Step markers distribute over trace concatenation. -/
theorem stepsOf_append (a b : List REv) :
    stepsOf (a ++ b) = stepsOf a ++ stepsOf b :=
  List.filterMap_append a b _

/-- A lone step marker contributes exactly its step. -/
theorem stepsOf_step_singleton (i : StepId) (r : Result) :
    stepsOf [REv.step i r] = [(i, r)] := rfl

/-- A partition entry's own trace (one call marker plus lifted partition
events) contains no step markers. -/
theorem stepsOf_call_sub (i j : StepId) (x : List String) (l : List Ev) :
    stepsOf (REv.call i x :: l.map (REv.sub j)) = [] := by
  simp only [stepsOf, List.filterMap_cons]
  simp [List.filterMap_map, Function.comp_def]

/-- Call markers distribute over trace concatenation. -/
theorem callsOf_append (a b : List REv) :
    callsOf (a ++ b) = callsOf a ++ callsOf b :=
  List.filterMap_append a b _

/-- A partition entry's own trace contributes exactly its call marker. -/
theorem callsOf_call_sub (i j : StepId) (x : List String) (l : List Ev) :
    callsOf (REv.call i x :: l.map (REv.sub j)) = [(i, x)] := by
  simp only [callsOf, List.filterMap_cons]
  simp [List.filterMap_map, Function.comp_def]

/-- A step kept by `cutFailed` was a step of the original list. -/
theorem mem_cutFailed {s : StepId × Result} :
    ∀ {L : List (StepId × Result)}, s ∈ cutFailed L → s ∈ L := by
  intro L
  induction L with
  | nil => simp [cutFailed]
  | cons x rest ih =>
    by_cases hf : x.2 = Result.FAILED
    · simp only [cutFailed, if_pos hf]
      intro h
      rw [List.mem_singleton] at h
      exact h ▸ List.mem_cons_self x rest
    · simp only [cutFailed, if_neg hf]
      intro h
      rcases List.mem_cons.mp h with rfl | h2
      · exact List.mem_cons_self s rest
      · exact List.mem_cons_of_mem x (ih h2)

/-- A truncated step list is `FAILED`-free exactly when the full list is. -/
theorem cutFailed_no_failed_iff (L : List (StepId × Result)) :
    (∀ s ∈ cutFailed L, s.2 ≠ Result.FAILED) ↔ (∀ s ∈ L, s.2 ≠ Result.FAILED) := by
  induction L with
  | nil => simp [cutFailed]
  | cons x rest ih =>
    by_cases hf : x.2 = Result.FAILED
    · simp [cutFailed, hf]
    · simp only [cutFailed, if_neg hf]
      constructor
      · intro hall s hs
        rcases List.mem_cons.mp hs with rfl | h2
        · exact hf
        · exact ih.mp (fun u hu => hall u (List.mem_cons_of_mem x hu)) s h2
      · intro hall s hs
        rcases List.mem_cons.mp hs with rfl | h2
        · exact hf
        · exact hall s (List.mem_cons_of_mem x (mem_cutFailed h2))

/-- The coordinator sequencing: the executed steps of a chain are the
selected steps truncated at the first failure, and the run succeeds exactly
when no selected step failed. -/
theorem run_chain_spec (l : List ChainEntry)
    (h : ∀ e ∈ l, stepsOf e.tr = []) :
    stepsOf (run_chain l).2 = cutFailed (selSteps l)
    ∧ ((run_chain l).1 = true ↔ ∀ s ∈ selSteps l, s.2 ≠ Result.FAILED) := by
  induction l with
  | nil => simp [run_chain, selSteps, cutFailed, stepsOf]
  | cons e rest ih =>
    have he : stepsOf e.tr = [] := h e (List.mem_cons_self e rest)
    obtain ⟨ih1, ih2⟩ := ih (fun x hx => h x (List.mem_cons_of_mem e hx))
    by_cases hsel : e.sel = true
    · have hsels : selSteps (e :: rest) = (e.id, e.res) :: selSteps rest := by
        simp [selSteps, List.filterMap_cons, hsel]
      by_cases hf : e.res = Result.FAILED
      · have hrc : run_chain (e :: rest) = (false, e.tr ++ [REv.step e.id e.res]) := by
          simp only [run_chain]
          rw [if_pos hsel, if_pos hf]
        rw [hrc, hsels]
        constructor
        · rw [show (false, e.tr ++ [REv.step e.id e.res]).2
              = e.tr ++ [REv.step e.id e.res] from rfl,
            stepsOf_append, he, stepsOf_step_singleton]
          simp [cutFailed, hf]
        · simp [hf]
      · have hrc : run_chain (e :: rest)
            = ((run_chain rest).1,
               (e.tr ++ [REv.step e.id e.res]) ++ (run_chain rest).2) := by
          simp only [run_chain]
          rw [if_pos hsel, if_neg hf]
        rw [hrc, hsels]
        constructor
        · rw [show ((run_chain rest).1,
              (e.tr ++ [REv.step e.id e.res]) ++ (run_chain rest).2).2
              = (e.tr ++ [REv.step e.id e.res]) ++ (run_chain rest).2 from rfl,
            stepsOf_append, stepsOf_append, he, stepsOf_step_singleton, ih1]
          simp [cutFailed, hf]
        · simp only [List.mem_cons, forall_eq_or_imp]
          rw [show ((run_chain rest).1,
              (e.tr ++ [REv.step e.id e.res]) ++ (run_chain rest).2).1
              = (run_chain rest).1 from rfl, ih2]
          simp [hf]
    · have hsel2 : e.sel = false := Bool.eq_false_iff.mpr hsel
      have hrc : run_chain (e :: rest) = run_chain rest := by
        simp only [run_chain]
        rw [if_neg (by simp [hsel2])]
      have hsels : selSteps (e :: rest) = selSteps rest := by
        simp [selSteps, List.filterMap_cons, hsel2]
      rw [hrc, hsels]
      exact ⟨ih1, ih2⟩

/-- Splitting a chain: the second half runs only when the first succeeded,
and traces concatenate. -/
theorem run_chain_append (l₁ l₂ : List ChainEntry) :
    run_chain (l₁ ++ l₂)
      = if (run_chain l₁).1 then
          ((run_chain l₂).1, (run_chain l₁).2 ++ (run_chain l₂).2)
        else run_chain l₁ := by
  induction l₁ with
  | nil => simp [run_chain]
  | cons e rest ih =>
    have hstep : ∀ l : List ChainEntry, run_chain (e :: l)
        = if e.sel = true then
            (if e.res = Result.FAILED then (false, e.tr ++ [REv.step e.id e.res])
             else ((run_chain l).1, (e.tr ++ [REv.step e.id e.res]) ++ (run_chain l).2))
          else run_chain l := fun l => rfl
    rw [List.cons_append, hstep (rest ++ l₂), hstep rest, ih]
    by_cases hsel : e.sel = true
    · by_cases hf : e.res = Result.FAILED
      · simp [hsel, hf]
      · by_cases hr : (run_chain rest).1 = true
        · simp [hsel, hf, hr, List.append_assoc]
        · have hr2 : (run_chain rest).1 = false := Bool.eq_false_iff.mpr hr
          simp [hsel, hf, hr2]
    · have hsel2 : e.sel = false := Bool.eq_false_iff.mpr hsel
      simp [hsel2]

/-- Every call marker of a chain's trace comes from one of its entries. -/
theorem run_chain_calls (l : List ChainEntry) :
    ∀ p ∈ callsOf (run_chain l).2, ∃ e ∈ l, p ∈ callsOf e.tr := by
  induction l with
  | nil => simp [run_chain, callsOf]
  | cons e rest ih =>
    intro p hp
    by_cases hsel : e.sel = true
    · by_cases hf : e.res = Result.FAILED
      · have hrc : run_chain (e :: rest) = (false, e.tr ++ [REv.step e.id e.res]) := by
          simp only [run_chain]
          rw [if_pos hsel, if_pos hf]
        rw [hrc] at hp
        rw [show (false, e.tr ++ [REv.step e.id e.res]).2
            = e.tr ++ [REv.step e.id e.res] from rfl,
          callsOf_append] at hp
        rcases List.mem_append.mp hp with h | h
        · exact ⟨e, List.mem_cons_self e rest, h⟩
        · simp [callsOf] at h
      · have hrc : run_chain (e :: rest)
            = ((run_chain rest).1,
               (e.tr ++ [REv.step e.id e.res]) ++ (run_chain rest).2) := by
          simp only [run_chain]
          rw [if_pos hsel, if_neg hf]
        rw [hrc] at hp
        rw [show ((run_chain rest).1,
            (e.tr ++ [REv.step e.id e.res]) ++ (run_chain rest).2).2
            = (e.tr ++ [REv.step e.id e.res]) ++ (run_chain rest).2 from rfl,
          callsOf_append, callsOf_append] at hp
        rcases List.mem_append.mp hp with h | h
        · rcases List.mem_append.mp h with h2 | h2
          · exact ⟨e, List.mem_cons_self e rest, h2⟩
          · simp [callsOf] at h2
        · obtain ⟨x, hx, hpx⟩ := ih p h
          exact ⟨x, List.mem_cons_of_mem e hx, hpx⟩
    · have hsel2 : e.sel = false := Bool.eq_false_iff.mpr hsel
      have hrc : run_chain (e :: rest) = run_chain rest := by
        simp only [run_chain]
        rw [if_neg (by simp [hsel2])]
      rw [hrc] at hp
      obtain ⟨x, hx, hpx⟩ := ih p hp
      exact ⟨x, List.mem_cons_of_mem e hx, hpx⟩

/-- No entry of the backup chain carries step markers of its own. -/
theorem backup_chain_steps_empty (rom : Rom) (od : String) (targets : Nat)
    (env : RomBackupEnv) :
    ∀ e ∈ backup_chain rom od targets env, stepsOf e.tr = [] := by
  intro e he
  simp only [backup_chain, List.mem_cons, List.not_mem_nil, or_false] at he
  rcases he with rfl | rfl | rfl | rfl | rfl
  · rfl
  · rfl
  · simp only [backup_system_entry]
    exact stepsOf_call_sub _ _ _ _
  · simp only [backup_cache_entry]
    exact stepsOf_call_sub _ _ _ _
  · simp only [backup_data_entry]
    exact stepsOf_call_sub _ _ _ _

/-- No entry of the restore chain carries step markers of its own. -/
theorem restore_chain_steps_empty (rom : Rom) (idir : String) (targets : Nat)
    (env : RomRestoreEnv) :
    ∀ e ∈ restore_chain rom idir targets env, stepsOf e.tr = [] := by
  intro e he
  simp only [restore_chain, List.mem_cons, List.not_mem_nil, or_false] at he
  rcases he with rfl | rfl | rfl | rfl | rfl
  · rfl
  · rfl
  · simp only [restore_system_entry]
    exact stepsOf_call_sub _ _ _ _
  · simp only [restore_cache_entry]
    exact stepsOf_call_sub _ _ _ _
  · simp only [restore_data_entry]
    exact stepsOf_call_sub _ _ _ _

/-- The selected steps of the backup chain are the claim's fixed-order list
with the respective step results. -/
theorem selSteps_backup_chain (rom : Rom) (od : String) (targets : Nat)
    (env : RomBackupEnv) :
    selSteps (backup_chain rom od targets env)
      = sel_steps_spec targets
          (backup_boot_image env.boot)
          (backup_configs env.config).1
          (backup_partition env.system rom.system_path od BACKUP_NAME_SYSTEM
            rom.system_is_image ["multiboot"]).1
          (backup_partition env.cache rom.cache_path od BACKUP_NAME_CACHE
            rom.cache_is_image ["multiboot"]).1
          (backup_partition env.data rom.data_path od BACKUP_NAME_DATA
            rom.data_is_image ["media", "multiboot"]).1 := by
  cases h1 : (targets &&& BACKUP_TARGET_BOOT != 0) <;>
    cases h2 : (targets &&& BACKUP_TARGET_CONFIG != 0) <;>
      cases h3 : (targets &&& BACKUP_TARGET_SYSTEM != 0) <;>
        cases h4 : (targets &&& BACKUP_TARGET_CACHE != 0) <;>
          cases h5 : (targets &&& BACKUP_TARGET_DATA != 0) <;>
            simp [backup_chain, backup_system_entry, backup_cache_entry,
                  backup_data_entry, selSteps, sel_steps_spec, h1, h2, h3, h4, h5]

/-- The selected steps of the restore chain are the claim's fixed-order list
with the respective step results. -/
theorem selSteps_restore_chain (rom : Rom) (idir : String) (targets : Nat)
    (env : RomRestoreEnv) :
    selSteps (restore_chain rom idir targets env)
      = sel_steps_spec targets
          (restore_boot_image env.boot rom.id env.bootRamdisk).1
          (restore_configs env.config).1
          (restore_partition env.system rom.system_path idir BACKUP_NAME_SYSTEM
            rom.system_is_image env.systemSize []).1
          (restore_partition env.cache rom.cache_path idir BACKUP_NAME_CACHE
            rom.cache_is_image DEFAULT_IMAGE_SIZE []).1
          (restore_partition env.data rom.data_path idir BACKUP_NAME_DATA
            rom.data_is_image DEFAULT_IMAGE_SIZE ["media"]).1 := by
  cases h1 : (targets &&& BACKUP_TARGET_BOOT != 0) <;>
    cases h2 : (targets &&& BACKUP_TARGET_CONFIG != 0) <;>
      cases h3 : (targets &&& BACKUP_TARGET_SYSTEM != 0) <;>
        cases h4 : (targets &&& BACKUP_TARGET_CACHE != 0) <;>
          cases h5 : (targets &&& BACKUP_TARGET_DATA != 0) <;>
            simp [restore_chain, restore_boot_entry, restore_config_entry,
                  restore_system_entry, restore_cache_entry, restore_data_entry,
                  selSteps, sel_steps_spec, h1, h2, h3, h4, h5]

/-- Under the restore preconditions (housekeeping mkdir succeeds; when System
is selected, the size query is nonzero) the restore coordinator runs its five
blocks as one chain. -/
theorem restore_rom_eq_chain (rom : Rom) (idir : String) (targets : Nat)
    (env : RomRestoreEnv) (ht : targets ≠ 0)
    (hmk : env.mkdirMultibootOk = true)
    (hsz : (targets &&& BACKUP_TARGET_SYSTEM != 0) = true → env.systemSize ≠ 0) :
    restore_rom rom idir targets env
      = run_chain (restore_chain rom idir targets env) := by
  have hsys : ((targets &&& BACKUP_TARGET_SYSTEM != 0) && (env.systemSize == 0))
      = false := by
    cases hs : (targets &&& BACKUP_TARGET_SYSTEM != 0)
    · simp
    · simp only [Bool.true_and]
      exact beq_eq_false_iff_ne.mpr (hsz hs)
  have hchain : restore_chain rom idir targets env
      = [restore_boot_entry rom targets env, restore_config_entry targets env]
        ++ [restore_system_entry rom idir targets env,
            restore_cache_entry rom idir targets env,
            restore_data_entry rom idir targets env] := rfl
  rw [hchain, run_chain_append]
  simp only [restore_rom]
  rw [if_neg ht, hmk]
  rcases hE : run_chain [restore_boot_entry rom targets env,
      restore_config_entry targets env] with ⟨a, b⟩
  cases a <;> simp [hsys]

/-- Claim C2 as frozen is false on the code: a restore with only the System
target selected, a succeeding housekeeping mkdir and a zero system-partition
size query returns overall failure although no step ran at all (so no
executed step returned `FAILED`). -/
theorem C2_counterexample :
    (restore_rom rom_sample "/bk" 1 rom_restore_env_size0).1 = false
    ∧ stepsOf (restore_rom rom_sample "/bk" 1 rom_restore_env_size0).2 = [] :=
  ⟨rfl, rfl⟩

/-- Claim C2 amended: with a non-empty target set the selected steps run in
the fixed order Boot, Config, System, Cache, Data; the first `FAILED` step
aborts the invocation (the executed steps are the selected ones truncated at
the first failure) and the invocation succeeds exactly when no executed step
returned `FAILED` — for restores, provided the housekeeping-directory
creation succeeds and, when System is selected, the system-partition size
query is nonzero (otherwise the restore aborts with overall failure without
any step having failed). -/
theorem C2_amended :
    (∀ (rom : Rom) (od : String) (targets : Nat) (env : RomBackupEnv),
      targets ≠ 0 →
      stepsOf (backup_rom rom od targets env).2
        = cutFailed (sel_steps_spec targets
            (backup_boot_image env.boot)
            (backup_configs env.config).1
            (backup_partition env.system rom.system_path od BACKUP_NAME_SYSTEM
              rom.system_is_image ["multiboot"]).1
            (backup_partition env.cache rom.cache_path od BACKUP_NAME_CACHE
              rom.cache_is_image ["multiboot"]).1
            (backup_partition env.data rom.data_path od BACKUP_NAME_DATA
              rom.data_is_image ["media", "multiboot"]).1)
      ∧ ((backup_rom rom od targets env).1 = true ↔
          ∀ s ∈ stepsOf (backup_rom rom od targets env).2, s.2 ≠ Result.FAILED))
    ∧ (∀ (rom : Rom) (idir : String) (targets : Nat) (env : RomRestoreEnv),
      targets ≠ 0 → env.mkdirMultibootOk = true →
      ((targets &&& BACKUP_TARGET_SYSTEM != 0) = true → env.systemSize ≠ 0) →
      stepsOf (restore_rom rom idir targets env).2
        = cutFailed (sel_steps_spec targets
            (restore_boot_image env.boot rom.id env.bootRamdisk).1
            (restore_configs env.config).1
            (restore_partition env.system rom.system_path idir BACKUP_NAME_SYSTEM
              rom.system_is_image env.systemSize []).1
            (restore_partition env.cache rom.cache_path idir BACKUP_NAME_CACHE
              rom.cache_is_image DEFAULT_IMAGE_SIZE []).1
            (restore_partition env.data rom.data_path idir BACKUP_NAME_DATA
              rom.data_is_image DEFAULT_IMAGE_SIZE ["media"]).1)
      ∧ ((restore_rom rom idir targets env).1 = true ↔
          ∀ s ∈ stepsOf (restore_rom rom idir targets env).2, s.2 ≠ Result.FAILED)) := by
  constructor
  · intro rom od targets env ht
    have hb : backup_rom rom od targets env
        = run_chain (backup_chain rom od targets env) := by
      simp [backup_rom, ht]
    obtain ⟨h1, h2⟩ := run_chain_spec (backup_chain rom od targets env)
      (backup_chain_steps_empty rom od targets env)
    rw [hb]
    refine ⟨by rw [h1, selSteps_backup_chain], ?_⟩
    rw [h1, h2, selSteps_backup_chain]
    exact (cutFailed_no_failed_iff _).symm
  · intro rom idir targets env ht hmk hsz
    have hb := restore_rom_eq_chain rom idir targets env ht hmk hsz
    obtain ⟨h1, h2⟩ := run_chain_spec (restore_chain rom idir targets env)
      (restore_chain_steps_empty rom idir targets env)
    rw [hb]
    refine ⟨by rw [h1, selSteps_restore_chain], ?_⟩
    rw [h1, h2, selSteps_restore_chain]
    exact (cutFailed_no_failed_iff _).symm

/-- Witness for C2's amended claim: an all-targets, all-succeeding backup
returns overall success. -/
theorem C2_amended_witness :
    (backup_rom rom_sample "/bk" 31 rom_backup_env_ok).1 = true :=
  (C2_amended.1 rom_sample "/bk" 31 rom_backup_env_ok (by decide)).2.mpr
    (by decide)

/-- The boot/config prefix of the restore chain steps only boot and config. -/
theorem restore_bc_system_free (rom : Rom) (targets : Nat) (env : RomRestoreEnv) :
    ∀ s ∈ selSteps [restore_boot_entry rom targets env,
                    restore_config_entry targets env],
      s.1 ≠ StepId.system := by
  intro s hs
  revert hs
  cases hbsel : (targets &&& BACKUP_TARGET_BOOT != 0) <;>
    cases hcsel : (targets &&& BACKUP_TARGET_CONFIG != 0) <;>
      simp [selSteps, restore_boot_entry, restore_config_entry, hbsel, hcsel] <;>
        rintro (rfl | rfl) <;> simp

/-- Claim C9: a restore with the System target selected queries the system
partition's total size before the System step; a zero result aborts the
whole restore with overall failure and the System step never runs —
whatever the ROM's image-mode flag and whether or not the system archive is
present in the bundle. -/
theorem C9_system_size_abort :
    ∀ (rom : Rom) (idir : String) (targets : Nat) (env : RomRestoreEnv),
      (targets &&& BACKUP_TARGET_SYSTEM != 0) = true →
      env.mkdirMultibootOk = true →
      env.systemSize = 0 →
      (restore_rom rom idir targets env).1 = false
      ∧ ∀ r : Result,
          (StepId.system, r) ∉ stepsOf (restore_rom rom idir targets env).2 := by
  intro rom idir targets env hs hmk hz
  have ht : targets ≠ 0 := by
    intro h0
    subst h0
    simp [BACKUP_TARGET_SYSTEM] at hs
  have hcond : ((targets &&& BACKUP_TARGET_SYSTEM != 0)
      && (env.systemSize == 0)) = true := by
    simp [hs, hz]
  have hrr : restore_rom rom idir targets env
      = (false, (run_chain [restore_boot_entry rom targets env,
                            restore_config_entry targets env]).2) := by
    simp only [restore_rom]
    rw [if_neg ht, hmk]
    by_cases hb : (run_chain [restore_boot_entry rom targets env,
        restore_config_entry targets env]).1 = true
    · simp [hb, hcond]
    · have hb2 : (run_chain [restore_boot_entry rom targets env,
          restore_config_entry targets env]).1 = false := Bool.eq_false_iff.mpr hb
      simp [hb2]
  rw [hrr]
  refine ⟨rfl, ?_⟩
  intro r hr
  obtain ⟨h1, _⟩ := run_chain_spec
    [restore_boot_entry rom targets env, restore_config_entry targets env]
    (by
      intro e he
      rcases List.mem_cons.mp he with rfl | he2
      · rfl
      · rcases List.mem_cons.mp he2 with rfl | he3
        · rfl
        · exact absurd he3 (List.not_mem_nil e))
  rw [show ((false : Bool), (run_chain [restore_boot_entry rom targets env,
      restore_config_entry targets env]).2).2
      = (run_chain [restore_boot_entry rom targets env,
                    restore_config_entry targets env]).2 from rfl, h1] at hr
  exact restore_bc_system_free rom targets env (StepId.system, r)
    (mem_cutFailed hr) rfl

/-- Witness for C9 at a concrete directory-mode ROM whose system archive is
absent and whose size query returns zero. -/
theorem C9_system_size_abort_witness :
    (restore_rom rom_sample "/bk" 1 rom_restore_env_size0).1 = false
    ∧ ∀ r : Result, (StepId.system, r)
        ∉ stepsOf (restore_rom rom_sample "/bk" 1 rom_restore_env_size0).2 :=
  C9_system_size_abort rom_sample "/bk" 1 rom_restore_env_size0 rfl rfl rfl

/-- Every call marker a backup invocation emits carries one of the three
backup exclusion lists. -/
theorem backup_rom_calls (rom : Rom) (od : String) (targets : Nat)
    (env : RomBackupEnv) :
    ∀ p ∈ callsOf (backup_rom rom od targets env).2,
      p = (StepId.system, ["multiboot"]) ∨ p = (StepId.cache, ["multiboot"])
        ∨ p = (StepId.data, ["media", "multiboot"]) := by
  intro p hp
  by_cases ht : targets = 0
  · rw [ht] at hp
    simp [backup_rom, callsOf] at hp
  · rw [show backup_rom rom od targets env
        = run_chain (backup_chain rom od targets env) from by
          simp [backup_rom, ht]] at hp
    obtain ⟨e, he, hpe⟩ := run_chain_calls _ p hp
    simp only [backup_chain, List.mem_cons, List.not_mem_nil, or_false] at he
    rcases he with rfl | rfl | rfl | rfl | rfl
    · exact absurd hpe (by simp [callsOf])
    · exact absurd hpe (by simp [callsOf])
    · simp only [backup_system_entry] at hpe
      rw [callsOf_call_sub] at hpe
      exact Or.inl (List.mem_singleton.mp hpe)
    · simp only [backup_cache_entry] at hpe
      rw [callsOf_call_sub] at hpe
      exact Or.inr (Or.inl (List.mem_singleton.mp hpe))
    · simp only [backup_data_entry] at hpe
      rw [callsOf_call_sub] at hpe
      exact Or.inr (Or.inr (List.mem_singleton.mp hpe))

/-- The boot/config prefix of a restore emits no call markers. -/
theorem restore_bc_calls_empty (rom : Rom) (targets : Nat) (env : RomRestoreEnv) :
    ∀ q, q ∉ callsOf (run_chain [restore_boot_entry rom targets env,
                                 restore_config_entry targets env]).2 := by
  intro q hq
  obtain ⟨e, he, hpe⟩ := run_chain_calls _ q hq
  rcases List.mem_cons.mp he with rfl | he2
  · exact absurd hpe (by simp [callsOf, restore_boot_entry])
  · rcases List.mem_cons.mp he2 with rfl | he3
    · exact absurd hpe (by simp [callsOf, restore_config_entry])
    · exact absurd he3 (List.not_mem_nil e)

/-- Every call marker the system/cache/data restore suffix emits carries one
of the three restore exclusion lists. -/
theorem restore_scd_calls (rom : Rom) (idir : String) (targets : Nat)
    (env : RomRestoreEnv) :
    ∀ q ∈ callsOf (run_chain [restore_system_entry rom idir targets env,
                              restore_cache_entry rom idir targets env,
                              restore_data_entry rom idir targets env]).2,
      q = (StepId.system, []) ∨ q = (StepId.cache, [])
        ∨ q = (StepId.data, ["media"]) := by
  intro q hq
  obtain ⟨e, he, hpe⟩ := run_chain_calls _ q hq
  simp only [List.mem_cons, List.not_mem_nil, or_false] at he
  rcases he with rfl | rfl | rfl
  · simp only [restore_system_entry] at hpe
    rw [callsOf_call_sub] at hpe
    exact Or.inl (List.mem_singleton.mp hpe)
  · simp only [restore_cache_entry] at hpe
    rw [callsOf_call_sub] at hpe
    exact Or.inr (Or.inl (List.mem_singleton.mp hpe))
  · simp only [restore_data_entry] at hpe
    rw [callsOf_call_sub] at hpe
    exact Or.inr (Or.inr (List.mem_singleton.mp hpe))

/-- Every call marker a restore invocation emits carries one of the three
restore exclusion lists. -/
theorem restore_rom_calls (rom : Rom) (idir : String) (targets : Nat)
    (env : RomRestoreEnv) :
    ∀ q ∈ callsOf (restore_rom rom idir targets env).2,
      q = (StepId.system, []) ∨ q = (StepId.cache, [])
        ∨ q = (StepId.data, ["media"]) := by
  intro q hq
  by_cases ht : targets = 0
  · rw [ht] at hq
    simp [restore_rom, callsOf] at hq
  · simp only [restore_rom] at hq
    rw [if_neg ht] at hq
    by_cases hmk : env.mkdirMultibootOk = true
    · rw [hmk] at hq
      rcases hE : run_chain [restore_boot_entry rom targets env,
          restore_config_entry targets env] with ⟨a, b⟩
      rw [hE] at hq
      have hbfree : ∀ x, x ∉ callsOf b := by
        intro x hx
        exact restore_bc_calls_empty rom targets env x
          (by rw [hE]; exact hx)
      cases a
      · simp only [Bool.not_true, Bool.not_false, if_true, if_false,
          Bool.false_eq_true, Bool.true_eq_false, ite_true, ite_false] at hq
        exact absurd hq (hbfree q)
      · simp only [Bool.not_true, Bool.not_false, Bool.false_eq_true,
          Bool.true_eq_false, ite_true, ite_false] at hq
        by_cases hcond : ((targets &&& BACKUP_TARGET_SYSTEM != 0)
            && (env.systemSize == 0)) = true
        · rw [if_pos hcond] at hq
          exact absurd hq (hbfree q)
        · rw [if_neg hcond] at hq
          rw [show ((run_chain [restore_system_entry rom idir targets env,
              restore_cache_entry rom idir targets env,
              restore_data_entry rom idir targets env]).1,
              b ++ (run_chain [restore_system_entry rom idir targets env,
              restore_cache_entry rom idir targets env,
              restore_data_entry rom idir targets env]).2).2
              = b ++ (run_chain [restore_system_entry rom idir targets env,
              restore_cache_entry rom idir targets env,
              restore_data_entry rom idir targets env]).2 from rfl,
            callsOf_append] at hq
          rcases List.mem_append.mp hq with h | h
          · exact absurd h (hbfree q)
          · exact restore_scd_calls rom idir targets env q h
    · have hmk2 : env.mkdirMultibootOk = false := Bool.eq_false_iff.mpr hmk
      rw [hmk2] at hq
      simp [callsOf] at hq

/-- Claim C10: restore-time wipe exclusions are asymmetric to backup-time
exclusions — every exclusion list a backup passes to a partition step
contains the housekeeping name `multiboot` (system/cache use exactly
`{multiboot}`, data `{media, multiboot}`), while every exclusion list a
restore passes excludes nothing for system and cache and only `media` for
data, so `multiboot` is not preserved by the restore wipe. -/
theorem C10_wipe_exclusions :
    (∀ (rom : Rom) (od : String) (targets : Nat) (env : RomBackupEnv)
        (p : StepId × List String),
      p ∈ callsOf (backup_rom rom od targets env).2 →
      "multiboot" ∈ p.2
        ∧ p ∈ [(StepId.system, ["multiboot"]), (StepId.cache, ["multiboot"]),
               (StepId.data, ["media", "multiboot"])])
    ∧ (∀ (rom : Rom) (idir : String) (targets : Nat) (env : RomRestoreEnv)
        (q : StepId × List String),
      q ∈ callsOf (restore_rom rom idir targets env).2 →
      "multiboot" ∉ q.2
        ∧ q ∈ [(StepId.system, ([] : List String)), (StepId.cache, []),
               (StepId.data, ["media"])]) := by
  constructor
  · intro rom od targets env p hp
    rcases backup_rom_calls rom od targets env p hp with rfl | rfl | rfl <;>
      exact ⟨by decide, by decide⟩
  · intro rom idir targets env q hq
    rcases restore_rom_calls rom idir targets env q hq with rfl | rfl | rfl <;>
      exact ⟨by decide, by decide⟩

/-- Witness for C10 at a concrete all-targets backup whose system call
passes exactly the `multiboot` exclusion. -/
theorem C10_wipe_exclusions_witness :
    "multiboot" ∈ (["multiboot"] : List String)
    ∧ (StepId.system, ["multiboot"])
        ∈ [(StepId.system, ["multiboot"]), (StepId.cache, ["multiboot"]),
           (StepId.data, ["media", "multiboot"])] :=
  C10_wipe_exclusions.1 rom_sample "/bk" 31 rom_backup_env_ok
    (StepId.system, ["multiboot"]) (by decide)

end MB
